import Mathlib

/-!
Verification of the workout playback engine and its time utilities,
shallowly embedded from the application sources (utils.py, models.py,
workout_player.py).  Pure helpers become Lean functions; the playback
window becomes an explicit state machine whose externally triggerable
entry points (the background video thread step, scheduled callbacks,
the play and pause button, the window-close handler) are small-step
operations on a system state that also records the stream of
observable events (database writes, frame reads, rest ticks).
-/

namespace WorkoutApp

/-! Decimal rendering of integers, modelling Python str formatting of ints.
natToDecCore is fueled so that it reduces definitionally; the fuel n + 1
always suffices since a number n has at most n + 1 decimal digits. -/

def digitChar (n : Nat) : Char := Char.ofNat (48 + n)

def natToDecCore (fuel : Nat) (n : Nat) (acc : List Char) : List Char :=
  match fuel with
  | 0 => acc
  | fuel + 1 => if n = 0 then acc else natToDecCore fuel (n / 10) (digitChar (n % 10) :: acc)

def natToDec (n : Nat) : List Char :=
  if n = 0 then ['0'] else natToDecCore (n + 1) n []

def intToDec (i : Int) : List Char :=
  if i < 0 then '-' :: natToDec i.natAbs else natToDec i.toNat

/-- Rendering of a nonnegative integer with Python format 02d:
zero-padded on the left to a minimum width of two digits. -/
def pad2 (n : Nat) : List Char :=
  if n < 10 then '0' :: natToDec n else natToDec n

/-- seconds_to_mmss from utils.py: minutes = seconds // 60, secs = seconds % 60,
rendered as the minutes (unpadded), a colon, and the seconds padded to two
digits.  Python // and % are floor division and floor modulus, so the
embedding uses Int.fdiv and Int.fmod. -/
def seconds_to_mmss (seconds : Int) : String :=
  ⟨intToDec (seconds.fdiv 60) ++ ':' :: pad2 (seconds.fmod 60).toNat⟩

/-- Python str.strip: drop whitespace from both ends. -/
def pyStrip (l : List Char) : List Char :=
  ((l.dropWhile Char.isWhitespace).reverse.dropWhile Char.isWhitespace).reverse

/-- Python str.split with a one-character separator. -/
def splitChar (sep : Char) : List Char → List (List Char)
  | [] => [[]]
  | c :: cs =>
    if c = sep then [] :: splitChar sep cs
    else
      match splitChar sep cs with
      | [] => [[c]]
      | p :: ps => (c :: p) :: ps

def isPyDigit (c : Char) : Bool := 48 ≤ c.toNat && c.toNat ≤ 57

def decodeDigits (l : List Char) : Nat :=
  l.foldl (fun a c => a * 10 + (c.toNat - 48)) 0

/-- Digit-string payload of Python int parsing: a nonempty all-digit string. -/
def parseDigits (l : List Char) : Option Nat :=
  if l.isEmpty then none
  else if l.all isPyDigit then some (decodeDigits l) else none

/-- Python int applied to a string: surrounding whitespace is stripped, an
optional sign is allowed, then a nonempty run of decimal digits. -/
def pyInt (l : List Char) : Option Int :=
  match pyStrip l with
  | [] => none
  | c :: rest =>
    if c = '-' then (parseDigits rest).map (fun n => -(n : Int))
    else if c = '+' then (parseDigits rest).map (fun n => (n : Int))
    else (parseDigits (c :: rest)).map (fun n => (n : Int))

/-- parse_time_input from utils.py: strip the input, split on the colon;
a two-part split parses both parts as ints and returns minutes * 60 + seconds,
anything else (wrong arity or an int parse failure) returns 0. -/
def parse_time_input (time_str : String) : Int :=
  match splitChar ':' (pyStrip time_str.data) with
  | [p1, p2] =>
    match pyInt p1, pyInt p2 with
    | some m, some s => m * 60 + s
    | _, _ => 0
  | _ => 0

/-- Python int applied to a float truncates toward zero; on a rational
num/den with den positive this is exactly Int division of num by den. -/
def pyTruncQ (q : ℚ) : Int := q.num / (q.den : Int)

/-- The remaining-time display of update_timers in workout_player.py:
seconds_to_mmss applied to int(duration - elapsed). -/
def format_remaining (duration elapsed : ℚ) : String :=
  seconds_to_mmss (pyTruncQ (duration - elapsed))

/-- The total-time display of update_timers in workout_player.py. -/
def format_total (total : ℚ) : String :=
  seconds_to_mmss (pyTruncQ total)

/-! Data model from models.py. -/

structure Exercise where
  video_path : String
  duration : Int
deriving DecidableEq, Repr

def Exercise.from_dict (video_path : String) (duration : Int) : Exercise :=
  ⟨video_path, duration⟩

structure Workout where
  name : String
  exercises : List (Option Exercise)
deriving DecidableEq, Repr

/-- Workout construction from models.py: with no list, ten empty cells;
with a list, the list padded with None up to ten cells.  Python's
list multiplication with a negative count yields the empty list, which
Nat subtraction models exactly. -/
def Workout.init (name : String) (exercises : Option (List (Option Exercise))) : Workout :=
  match exercises with
  | none => ⟨name, List.replicate 10 none⟩
  | some l => ⟨name, l ++ List.replicate (10 - l.length) none⟩

/-- Workout.from_dict from models.py: each non-None entry goes through
Exercise.from_dict, None entries are kept, and the result list is passed
to the Workout constructor. -/
def Workout.from_dict (name : String) (exercise_dicts : List (Option Exercise)) : Workout :=
  Workout.init name
    (some (exercise_dicts.map (fun d =>
      match d with
      | some e => some (Exercise.from_dict e.video_path e.duration)
      | none => none)))

def Workout.get_total_duration (w : Workout) : Int :=
  ((w.exercises.filterMap id).map Exercise.duration).sum

def Workout.get_exercise_count (w : Workout) : Nat :=
  (w.exercises.filterMap id).length

/-! Lemmas about the decimal renderer and the parser. -/

theorem natToDecCore_zero (fuel : Nat) (acc : List Char) :
    natToDecCore fuel 0 acc = acc := by
  cases fuel <;> simp [natToDecCore]

theorem natToDecCore_append (fuel : Nat) :
    ∀ (n : Nat) (acc : List Char),
      natToDecCore fuel n acc = natToDecCore fuel n [] ++ acc := by
  induction fuel with
  | zero => intro n acc; simp [natToDecCore]
  | succ fuel ih =>
    intro n acc
    by_cases h : n = 0
    · simp [natToDecCore, h]
    · simp only [natToDecCore, if_neg h]
      rw [ih (n / 10) (digitChar (n % 10) :: acc), ih (n / 10) [digitChar (n % 10)]]
      simp

theorem digitChar_toNat (m : Nat) (h : m < 10) : (digitChar m).toNat = 48 + m := by
  interval_cases m <;> decide

theorem digitChar_digit (m : Nat) (h : m < 10) : isPyDigit (digitChar m) = true := by
  interval_cases m <;> decide

theorem digitChar_ne_zero_char (m : Nat) (h0 : 0 < m) (h : m < 10) : digitChar m ≠ '0' := by
  interval_cases m <;> decide

theorem natToDecCore_digits (fuel : Nat) :
    ∀ (n : Nat) (acc : List Char), (∀ c ∈ acc, isPyDigit c = true) →
      ∀ c ∈ natToDecCore fuel n acc, isPyDigit c = true := by
  induction fuel with
  | zero => intro n acc hacc; simpa [natToDecCore] using hacc
  | succ fuel ih =>
    intro n acc hacc
    by_cases h : n = 0
    · simpa [natToDecCore, h] using hacc
    · simp only [natToDecCore, if_neg h]
      refine ih (n / 10) _ ?_
      intro c hc
      rcases List.mem_cons.mp hc with rfl | hc
      · exact digitChar_digit _ (Nat.mod_lt _ (by norm_num))
      · exact hacc c hc

theorem foldl_decode (l : List Char) :
    ∀ a : Nat, l.foldl (fun a c => a * 10 + (c.toNat - 48)) a
      = a * 10 ^ l.length + decodeDigits l := by
  induction l with
  | nil => intro a; simp [decodeDigits]
  | cons c l ih =>
    intro a
    have hc : decodeDigits (c :: l) = (c.toNat - 48) * 10 ^ l.length + decodeDigits l := by
      show List.foldl _ (0 * 10 + (c.toNat - 48)) l = _
      rw [ih]
      ring_nf
    show List.foldl _ (a * 10 + (c.toNat - 48)) l = _
    rw [ih, hc]
    simp only [List.length_cons, pow_succ]
    ring

theorem decodeDigits_append (l1 l2 : List Char) :
    decodeDigits (l1 ++ l2) = decodeDigits l1 * 10 ^ l2.length + decodeDigits l2 := by
  show List.foldl _ 0 (l1 ++ l2) = _
  rw [List.foldl_append]
  exact foldl_decode l2 (decodeDigits l1)

theorem decode_natToDecCore (fuel : Nat) :
    ∀ n : Nat, n < 10 ^ fuel → decodeDigits (natToDecCore fuel n []) = n := by
  induction fuel with
  | zero =>
    intro n hn
    have : n = 0 := by simpa using Nat.lt_one_iff.mp (by simpa using hn)
    subst this
    simp [natToDecCore, decodeDigits]
  | succ fuel ih =>
    intro n hn
    by_cases h : n = 0
    · subst h; simp [natToDecCore, decodeDigits]
    · have hdiv : n / 10 < 10 ^ fuel := by
        rw [Nat.div_lt_iff_lt_mul (by norm_num : 0 < 10)]
        calc n < 10 ^ (fuel + 1) := hn
        _ = 10 ^ fuel * 10 := by rw [pow_succ]
      simp only [natToDecCore, if_neg h]
      rw [natToDecCore_append, decodeDigits_append, ih (n / 10) hdiv]
      have hd : decodeDigits [digitChar (n % 10)] = n % 10 := by
        show 0 * 10 + ((digitChar (n % 10)).toNat - 48) = n % 10
        rw [digitChar_toNat _ (Nat.mod_lt _ (by norm_num))]
        omega
      rw [hd]
      simp only [List.length_singleton, pow_one]
      omega

theorem natToDecCore_head (fuel : Nat) :
    ∀ n : Nat, 0 < n → n < 10 ^ fuel →
      ∃ c l, natToDecCore fuel n [] = c :: l ∧ c ≠ '0' := by
  induction fuel with
  | zero =>
    intro n h0 hn
    exact absurd (by simpa using hn) (by omega)
  | succ fuel ih =>
    intro n h0 hn
    have h : ¬ n = 0 := by omega
    simp only [natToDecCore, if_neg h]
    rw [natToDecCore_append]
    by_cases hq : n / 10 = 0
    · have hlt : n < 10 := by
        have := Nat.div_add_mod n 10
        have : n % 10 = n := by omega
        omega
      have hmod : n % 10 = n := Nat.mod_eq_of_lt hlt
      refine ⟨digitChar (n % 10), [], ?_, ?_⟩
      · rw [hq, natToDecCore_zero]; simp
      · rw [hmod]; exact digitChar_ne_zero_char n h0 hlt
    · have hdiv : n / 10 < 10 ^ fuel := by
        rw [Nat.div_lt_iff_lt_mul (by norm_num : 0 < 10)]
        calc n < 10 ^ (fuel + 1) := hn
        _ = 10 ^ fuel * 10 := by rw [pow_succ]
      obtain ⟨c, l, hcl, hc⟩ := ih (n / 10) (Nat.pos_of_ne_zero hq) hdiv
      exact ⟨c, l ++ [digitChar (n % 10)], by rw [hcl]; simp, hc⟩

theorem n_lt_ten_pow_succ (n : Nat) : n < 10 ^ (n + 1) :=
  lt_of_lt_of_le (Nat.lt_pow_self (by norm_num) n)
    (Nat.pow_le_pow_right (by norm_num) (Nat.le_succ n))

theorem natToDec_digits (n : Nat) : ∀ c ∈ natToDec n, isPyDigit c = true := by
  by_cases h : n = 0
  · subst h; decide
  · simp only [natToDec, if_neg h]
    exact natToDecCore_digits (n + 1) n [] (by simp)

theorem natToDec_decode (n : Nat) : decodeDigits (natToDec n) = n := by
  by_cases h : n = 0
  · subst h; decide
  · simp only [natToDec, if_neg h]
    exact decode_natToDecCore (n + 1) n (n_lt_ten_pow_succ n)

theorem natToDec_ne_nil (n : Nat) : natToDec n ≠ [] := by
  by_cases h : n = 0
  · subst h; decide
  · simp only [natToDec, if_neg h]
    obtain ⟨c, l, hcl, _⟩ := natToDecCore_head (n + 1) n (Nat.pos_of_ne_zero h)
      (n_lt_ten_pow_succ n)
    rw [hcl]; simp

theorem natToDec_head_ne_zero (n : Nat) (h : 0 < n) : (natToDec n).head? ≠ some '0' := by
  have hne : ¬ n = 0 := by omega
  simp only [natToDec, if_neg hne]
  obtain ⟨c, l, hcl, hc⟩ := natToDecCore_head (n + 1) n h (n_lt_ten_pow_succ n)
  rw [hcl]
  simp only [List.head?_cons]
  intro hcontra
  exact hc (by injection hcontra)

theorem pad2_digits (n : Nat) : ∀ c ∈ pad2 n, isPyDigit c = true := by
  unfold pad2
  split
  · intro c hc
    rcases List.mem_cons.mp hc with rfl | hc
    · decide
    · exact natToDec_digits n c hc
  · exact natToDec_digits n

theorem pad2_decode (n : Nat) : decodeDigits (pad2 n) = n := by
  unfold pad2
  split
  · show decodeDigits (natToDec n) = n
    exact natToDec_decode n
  · exact natToDec_decode n

theorem natToDec_lt_ten (n : Nat) (h : n < 10) : natToDec n = [digitChar n] := by
  interval_cases n <;> decide

theorem pad2_length_two (n : Nat) (h : n < 60) : (pad2 n).length = 2 := by
  by_cases h10 : n < 10
  · simp only [pad2, if_pos h10]
    rw [natToDec_lt_ten n h10]
    rfl
  · simp only [pad2, if_neg h10]
    have h10' : 10 ≤ n := by omega
    interval_cases n <;> decide

theorem digit_not_whitespace (c : Char) (h : isPyDigit c = true) :
    c.isWhitespace = false := by
  cases hw : c.isWhitespace
  · rfl
  · exfalso
    have hw' : ((c = ' ' ∨ c = '\t') ∨ c = '\r') ∨ c = '\n' := by
      simpa [Char.isWhitespace, Bool.or_eq_true, decide_eq_true_eq] using hw
    rcases hw' with ((rfl | rfl) | rfl) | rfl <;> revert h <;> decide

theorem digit_ne_colon (c : Char) (h : isPyDigit c = true) : c ≠ ':' := by
  intro heq; subst heq; revert h; decide

theorem digit_ne_minus (c : Char) (h : isPyDigit c = true) : c ≠ '-' := by
  intro heq; subst heq; revert h; decide

theorem digit_ne_plus (c : Char) (h : isPyDigit c = true) : c ≠ '+' := by
  intro heq; subst heq; revert h; decide

theorem dropWhile_eq_self_of (p : Char → Bool) (l : List Char)
    (h : ∀ c ∈ l, p c = false) : l.dropWhile p = l := by
  cases l with
  | nil => rfl
  | cons a l =>
    rw [List.dropWhile_cons, h a (List.mem_cons_self a l)]
    simp

theorem pyStrip_eq_self (l : List Char) (h : ∀ c ∈ l, c.isWhitespace = false) :
    pyStrip l = l := by
  unfold pyStrip
  rw [dropWhile_eq_self_of _ l h,
    dropWhile_eq_self_of _ l.reverse (fun c hc => h c (List.mem_reverse.mp hc)),
    List.reverse_reverse]

theorem splitChar_not_mem (sep : Char) :
    ∀ l : List Char, sep ∉ l → splitChar sep l = [l]
  | [], _ => rfl
  | c :: cs, h => by
    have hc : ¬ c = sep := fun e => h (e ▸ List.mem_cons_self c cs)
    have hcs : sep ∉ cs := fun m => h (List.mem_cons_of_mem _ m)
    simp only [splitChar, if_neg hc, splitChar_not_mem sep cs hcs]

theorem splitChar_append (sep : Char) :
    ∀ (A B : List Char), sep ∉ A →
      splitChar sep (A ++ sep :: B) = A :: splitChar sep B
  | [], B, _ => by simp [splitChar]
  | a :: A, B, h => by
    have ha : ¬ a = sep := fun e => h (e ▸ List.mem_cons_self a A)
    have hA : sep ∉ A := fun m => h (List.mem_cons_of_mem _ m)
    simp only [List.cons_append, splitChar, if_neg ha, List.append_eq,
      splitChar_append sep A B hA]

theorem pyInt_digits (l : List Char) (hne : l ≠ [])
    (hd : ∀ c ∈ l, isPyDigit c = true) :
    pyInt l = some ((decodeDigits l : Nat) : Int) := by
  obtain ⟨c, rest, rfl⟩ := List.exists_cons_of_ne_nil hne
  have hstrip : pyStrip (c :: rest) = c :: rest :=
    pyStrip_eq_self _ (fun x hx => digit_not_whitespace x (hd x hx))
  have hc : isPyDigit c = true := hd c (List.mem_cons_self c rest)
  have hparse : parseDigits (c :: rest) = some (decodeDigits (c :: rest)) := by
    unfold parseDigits
    rw [if_neg (by simp), if_pos (List.all_eq_true.mpr hd)]
  simp only [pyInt, hstrip, if_neg (digit_ne_minus c hc), if_neg (digit_ne_plus c hc),
    hparse, Option.map_some]
  rfl

theorem mmss_data (s : Nat) :
    (seconds_to_mmss (s : Int)).data = natToDec (s / 60) ++ ':' :: pad2 (s % 60) := by
  have hfdiv : (s : Int).fdiv 60 = ((s / 60 : Nat) : Int) := by
    rw [Int.fdiv_eq_ediv _ (by norm_num)]
    omega
  have hfmod : (s : Int).fmod 60 = ((s % 60 : Nat) : Int) := by
    rw [Int.fmod_eq_emod _ (by norm_num)]
    omega
  show intToDec ((s : Int).fdiv 60) ++ ':' :: pad2 ((s : Int).fmod 60).toNat = _
  rw [hfdiv, hfmod]
  have h1 : intToDec ((s / 60 : Nat) : Int) = natToDec (s / 60) := by
    unfold intToDec
    rw [if_neg (by omega : ¬ ((s / 60 : Nat) : Int) < 0)]
    congr 1
  have h2 : (((s % 60 : Nat) : Int)).toNat = s % 60 := by omega
  rw [h1, h2]

/-- Claim C10: round-trip of the time utilities — for every nonnegative
integer number of seconds, formatting with seconds_to_mmss and parsing back
with parse_time_input recovers the value exactly. -/
theorem c10_parse_format_roundtrip (s : Nat) :
    parse_time_input (seconds_to_mmss (s : Int)) = (s : Int) := by
  have hdata := mmss_data s
  unfold parse_time_input
  rw [hdata]
  have hM := natToDec_digits (s / 60)
  have hS := pad2_digits (s % 60)
  have hws : ∀ c ∈ natToDec (s / 60) ++ ':' :: pad2 (s % 60), c.isWhitespace = false := by
    intro c hc
    rcases List.mem_append.mp hc with hc | hc
    · exact digit_not_whitespace c (hM c hc)
    · rcases List.mem_cons.mp hc with rfl | hc
      · decide
      · exact digit_not_whitespace c (hS c hc)
  rw [pyStrip_eq_self _ hws]
  rw [splitChar_append ':' _ _ (fun m => digit_ne_colon _ (hM _ m) rfl)]
  rw [splitChar_not_mem ':' _ (fun m => digit_ne_colon _ (hS _ m) rfl)]
  have hSne : pad2 (s % 60) ≠ [] := by
    unfold pad2
    split
    · simp
    · exact natToDec_ne_nil _
  simp only [pyInt_digits _ (natToDec_ne_nil (s / 60)) hM, pyInt_digits _ hSne hS,
    natToDec_decode, pad2_decode]
  omega

/-- Claim C8: the timer-formatting functions are pure functions producing
strings of shape minutes, colon, two-digit zero-padded seconds; the minutes
part is not zero-padded (its leading digit is nonzero once the value reaches
a full minute); the remaining-time display for duration 90 and elapsed 83 is
0:07 (not 00:07), and for duration 600 and elapsed 0 it is 10:00. -/
theorem c8_timer_format :
    (format_remaining 90 83 = "0:07" ∧ format_remaining 600 0 = "10:00" ∧
      format_remaining 90 83 ≠ "00:07") ∧
    ∀ s : Nat,
      (seconds_to_mmss (s : Int)).data = natToDec (s / 60) ++ ':' :: pad2 (s % 60) ∧
      (pad2 (s % 60)).length = 2 ∧
      (60 ≤ s → (natToDec (s / 60)).head? ≠ some '0') := by
  have e1 : pyTruncQ ((90 : ℚ) - 83) = 7 := by
    have h : (90 : ℚ) - 83 = 7 := by norm_num
    rw [h]
    show (7 : ℚ).num / ((7 : ℚ).den : Int) = 7
    norm_num
  have e2 : pyTruncQ ((600 : ℚ) - 0) = 600 := by
    have h : (600 : ℚ) - 0 = 600 := by norm_num
    rw [h]
    show (600 : ℚ).num / ((600 : ℚ).den : Int) = 600
    norm_num
  have f1 : format_remaining 90 83 = seconds_to_mmss 7 := by
    unfold format_remaining
    rw [e1]
  have f2 : format_remaining 600 0 = seconds_to_mmss 600 := by
    unfold format_remaining
    rw [e2]
  refine ⟨⟨?_, ?_, ?_⟩, fun s => ⟨mmss_data s, ?_, ?_⟩⟩
  · rw [f1]; decide
  · rw [f2]; decide
  · rw [f1]; decide
  · exact pad2_length_two _ (Nat.mod_lt _ (by norm_num))
  · intro h60
    exact natToDec_head_ne_zero _ (Nat.div_pos h60 (by norm_num))

theorem c8_timer_format_witness : (natToDec (90 / 60)).head? ≠ some '0' :=
  (c8_timer_format.2 90).2.2 (by norm_num)

/-- Claim C9: evaluating the Workout constructor at an eleven-entry exercise
list.  The constructor pads short lists with None up to ten slots but does
not truncate or reject longer lists (a negative pad count produces the empty
pad), so both direct construction and from_dict deserialization of an
eleven-entry list yield a slot list of length 11, violating the documented
"always 10 cells" invariant; the no-list and short-list cases do give 10. -/
theorem c9_eleven_entry_list_breaks_ten_slot_invariant :
    (Workout.init "W" (some (List.replicate 11 (some ⟨"v", 5⟩)))).exercises.length = 11 ∧
    (Workout.from_dict "W" (List.replicate 11 (some ⟨"v", 5⟩))).exercises.length = 11 ∧
    ¬ (Workout.init "W" (some (List.replicate 11 (some ⟨"v", 5⟩)))).exercises.length = 10 ∧
    (Workout.init "W" none).exercises.length = 10 ∧
    (Workout.init "W" (some (List.replicate 3 (some ⟨"v", 5⟩)))).exercises.length = 10 := by
  refine ⟨?_, ?_, ?_, ?_, ?_⟩ <;> decide

/-! Playback engine model from workout_player.py.

The WorkoutPlayer window is embedded as a state machine.  Scheduled Tk
callbacks (the after calls: on_exercise_complete from the video thread,
the rest-countdown tick, the skip-to-next on a failed video open) are
modelled as a pending-callback slot; the externally triggerable entry
points — one iteration of the background video loop, firing the pending
callback, the play/pause button, and the window-manager close — are the
operations of the machine.  The environment supplies, per exercise index,
whether its video opens, its reported frame rate, and its stream length
in frames.  Observable effects (database writes, frame reads, rest ticks)
are appended to an event log. -/

inductive Pending where
  | exComplete
  | restCd (seconds : Nat)
  | nextEx
deriving DecidableEq, Repr

inductive Ev where
  | windowCreated
  | dbConnected
  | uiCreated
  | dbInsert (sid : Nat) (workout_name : String) (elapsed : Int) (completed : Bool)
  | dbUpdate (sid : Nat) (elapsed : Int) (completed : Bool)
  | videoOpened (index : Nat)
  | videoReleased
  | frameRead (index : Nat)
  | restEntered
  | restTick
  | dialogShown (completed : Bool)
deriving DecidableEq, Repr

structure PlayerState where
  is_playing : Bool
  is_paused : Bool
  is_resting : Bool
  current_exercise_index : Nat
  current_time : ℚ
  total_elapsed : ℚ
  session_id : Option Nat
  workout_name : String
  exercises : List Exercise
  fps : ℚ
  video_open : Bool
  video_pos : Nat
  stop_video_thread : Bool
  thread_alive : Bool
  pending : Option Pending
  destroyed : Bool
  ui_created : Bool
deriving DecidableEq, Repr

structure Env where
  opens : Nat → Bool
  fps : Nat → ℚ
  frames : Nat → Nat

structure Sys where
  st : PlayerState
  nextSessionId : Nat
  log : List Ev
deriving DecidableEq, Repr

def emit (e : Ev) (sys : Sys) : Sys := { sys with log := sys.log ++ [e] }

def modSt (f : PlayerState → PlayerState) (sys : Sys) : Sys := { sys with st := f sys.st }

/-- Duration of the exercise at the current index (exercises are looked up
by index exactly as in video_loop and update_timers). -/
def currentDuration (st : PlayerState) : ℚ :=
  match st.exercises.get? st.current_exercise_index with
  | some e => (e.duration : ℚ)
  | none => 0

/-- frame_delay of video_loop: one over the (already defaulted) frame rate. -/
def frameDelay (st : PlayerState) : ℚ := 1 / st.fps

/-- The release-and-clear of self.video_capture guarded by its truthiness. -/
def releaseCapture (sys : Sys) : Sys :=
  if sys.st.video_open then
    emit .videoReleased (modSt (fun st => { st with video_open := false }) sys)
  else sys

/-- The update_workout_session call guarded by the truthiness of
self.session_id (sqlite row ids are positive, so the zero case never
blocks a real record): a dbUpdate write of int(total_elapsed). -/
def emitSessionUpdate (completed : Bool) (sys : Sys) : Sys :=
  match sys.st.session_id with
  | some sid =>
    if sid = 0 then sys
    else emit (.dbUpdate sid (pyTruncQ sys.st.total_elapsed) completed) sys
  | none => sys

/-- finish_workout: stop the video thread, release the capture, update the
session record (guarded by the truthiness of session_id), show the result
dialog, destroy the window. -/
def finish_workout (completed : Bool) (sys : Sys) : Sys :=
  let sys := modSt (fun st => { st with stop_video_thread := true }) sys
  let sys := releaseCapture sys
  let sys := emitSessionUpdate completed sys
  let sys := emit (.dialogShown completed) sys
  modSt (fun st => { st with destroyed := true }) sys

/-- on_close: stop the video thread, clear the resting flag, release the
capture, write completed = false for the session, destroy.  There is no
dialog here, and nothing clears session_id or otherwise prevents a later
terminal write by a still-pending completion callback. -/
def on_close (sys : Sys) : Sys :=
  let sys := modSt (fun st => { st with stop_video_thread := true, is_resting := false }) sys
  let sys := releaseCapture sys
  let sys := emitSessionUpdate false sys
  modSt (fun st => { st with destroyed := true }) sys

def start_video_playback (sys : Sys) : Sys :=
  modSt (fun st => { st with stop_video_thread := false, thread_alive := true }) sys

/-- load_exercise: past-the-end index finishes the workout; otherwise set the
index, reset the segment clock, stop and release the previous capture, open
the new one.  A failed open schedules the skip-to-next callback; a successful
open reads the frame rate (defaulting 0 to 30) and, when already playing and
not paused, starts the playback thread. -/
def load_exercise (env : Env) (index : Nat) (sys : Sys) : Sys :=
  if sys.st.exercises.length ≤ index then
    finish_workout true sys
  else
    let sys := modSt (fun st =>
      { st with current_exercise_index := index, current_time := 0 }) sys
    let sys := modSt (fun st => { st with stop_video_thread := true }) sys
    let sys := releaseCapture sys
    let sys := modSt (fun st => { st with video_open := true, video_pos := 0 }) sys
    if env.opens index then
      let sys := emit (.videoOpened index) sys
      let fps0 := env.fps index
      let sys := modSt (fun st => { st with fps := if fps0 = 0 then 30 else fps0 }) sys
      if sys.st.is_playing && !sys.st.is_paused then start_video_playback sys else sys
    else
      modSt (fun st => { st with pending := some Pending.nextEx }) sys

def next_exercise (env : Env) (sys : Sys) : Sys :=
  load_exercise env (sys.st.current_exercise_index + 1) sys

/-- rest_countdown: a destroyed window returns immediately; a positive count
while resting and unpaused ticks total_elapsed by one second and schedules
itself with the decremented count; a zero count while resting and unpaused
ends the rest and loads the next exercise; otherwise (paused, or no longer
resting) it silently returns, scheduling nothing. -/
def rest_countdown (env : Env) (seconds : Nat) (sys : Sys) : Sys :=
  if sys.st.destroyed = true then sys
  else if 0 < seconds ∧ sys.st.is_resting = true ∧ sys.st.is_paused = false then
    let sys := modSt (fun st => { st with total_elapsed := st.total_elapsed + 1 }) sys
    let sys := emit .restTick sys
    modSt (fun st => { st with pending := some (Pending.restCd (seconds - 1)) }) sys
  else if sys.st.is_resting = true ∧ sys.st.is_paused = false then
    let sys := modSt (fun st => { st with is_resting := false }) sys
    next_exercise env sys
  else sys

/-- show_rest_period: set the resting flag, then (canvas operations — which
raise once the window is destroyed, aborting the handler) record the rest
entry and run the first countdown step with the fixed constant 10. -/
def show_rest_period (env : Env) (sys : Sys) : Sys :=
  let sys := modSt (fun st => { st with is_resting := true }) sys
  if sys.st.destroyed = true then sys
  else
    let sys := emit .restEntered sys
    rest_countdown env 10 sys

/-- on_exercise_complete: stop and release, then either enter the rest
period (when another exercise follows) or finish with completed = true. -/
def on_exercise_complete (env : Env) (sys : Sys) : Sys :=
  let sys := modSt (fun st => { st with stop_video_thread := true }) sys
  let sys := releaseCapture sys
  if sys.st.current_exercise_index + 1 < sys.st.exercises.length then
    show_rest_period env sys
  else
    finish_workout true sys

/-- toggle_play_pause: the first press starts playback; later presses flip
the pause flag.  On resume, a resting session is left alone (the comment in
the source claims the countdown resumes via its condition check), and a dead
video thread is restarted only when not resting. -/
def toggle_play_pause (sys : Sys) : Sys :=
  if sys.st.is_playing = false then
    start_video_playback (modSt (fun st => { st with is_playing := true }) sys)
  else
    let sys := modSt (fun st => { st with is_paused := !st.is_paused }) sys
    if sys.st.is_paused = true then sys
    else if sys.st.is_resting = true then sys
    else if sys.st.thread_alive = false then start_video_playback sys
    else sys

/-- One iteration of the video_loop while-loop, plus its exit handling.
While the stop flag is unset and the segment clock is below the exercise
duration: a paused iteration sleeps and changes nothing; a successful frame
read advances the position and both clocks by the frame delay; a failed read
(end of stream) resets the position to the start and advances nothing.  On
exit the thread dies and, unless stopped, schedules on_exercise_complete. -/
def video_step (env : Env) (sys : Sys) : Sys :=
  if sys.st.thread_alive = false then sys
  else if sys.st.stop_video_thread = false ∧ sys.st.current_time < currentDuration sys.st then
    if sys.st.is_paused = true then sys
    else if sys.st.video_pos < env.frames sys.st.current_exercise_index then
      let delay := frameDelay sys.st
      let sys := emit (.frameRead sys.st.current_exercise_index) sys
      modSt (fun st => { st with
        video_pos := st.video_pos + 1,
        current_time := st.current_time + delay,
        total_elapsed := st.total_elapsed + delay }) sys
    else
      modSt (fun st => { st with video_pos := 0 }) sys
  else
    let sys := modSt (fun st => { st with thread_alive := false }) sys
    if sys.st.stop_video_thread = false then
      modSt (fun st => { st with pending := some Pending.exComplete }) sys
    else sys

/-- Firing the pending scheduled callback: the scheduler clears the slot and
runs the callback body. -/
def fire_pending (env : Env) (sys : Sys) : Sys :=
  match sys.st.pending with
  | none => sys
  | some cb =>
    let sys := modSt (fun st => { st with pending := none }) sys
    match cb with
    | Pending.exComplete => on_exercise_complete env sys
    | Pending.restCd k => rest_countdown env k sys
    | Pending.nextEx => next_exercise env sys

/-- Externally triggerable operations: a step of the background video
thread, the firing of a scheduled callback, the play/pause button, and the
window-manager close.  Widget-generated intents (button, close) can no
longer arrive once the window is destroyed; the thread and the scheduler
can still run, and their handlers carry their own guards. -/
inductive PlayerOp where
  | videoStep
  | fireCb
  | toggle
  | close
deriving DecidableEq, Repr

def applyOp (env : Env) (op : PlayerOp) (sys : Sys) : Sys :=
  match op with
  | PlayerOp.videoStep => video_step env sys
  | PlayerOp.fireCb => fire_pending env sys
  | PlayerOp.toggle => if sys.st.destroyed = true then sys else toggle_play_pause sys
  | PlayerOp.close => if sys.st.destroyed = true then sys else on_close sys

def runOps (env : Env) (ops : List PlayerOp) (sys : Sys) : Sys :=
  ops.foldl (fun s op => applyOp env op s) sys

/-- start_workout: insert the session record (elapsed 0, completed false,
the name falling back to Untitled for an empty workout name), capture the
returned row id, and load the first exercise. -/
def start_workout (env : Env) (sys : Sys) : Sys :=
  let name := if sys.st.workout_name = "" then "Untitled" else sys.st.workout_name
  let sid := sys.nextSessionId
  let sys := emit (Ev.dbInsert sid name 0 false) { sys with nextSessionId := sid + 1 }
  let sys := modSt (fun st => { st with session_id := some sid }) sys
  load_exercise env 0 sys

def initPlayerState (w : Workout) : PlayerState :=
  { is_playing := false, is_paused := false, is_resting := false,
    current_exercise_index := 0, current_time := 0, total_elapsed := 0,
    session_id := none, workout_name := w.name,
    exercises := w.exercises.filterMap id,
    fps := 0, video_open := false, video_pos := 0,
    stop_video_thread := false, thread_alive := false,
    pending := none, destroyed := false, ui_created := false }

/-- The constructor of the player window: the window object and the database
handle come into existence first, then the active (non-None) exercises are
computed; with none the window is destroyed at once, otherwise the interface
is built and start_workout runs. -/
def initPlayer (env : Env) (w : Workout) (nid : Nat) : Sys :=
  let sys : Sys := { st := initPlayerState w, nextSessionId := nid,
                     log := [Ev.windowCreated, Ev.dbConnected] }
  if sys.st.exercises.isEmpty then
    modSt (fun st => { st with destroyed := true }) sys
  else
    let sys := emit Ev.uiCreated (modSt (fun st => { st with ui_created := true }) sys)
    start_workout env sys

/-- The deterministic scheduling of a session receiving no user intents:
a pending callback fires as soon as it is due, otherwise the live video
thread takes a step, otherwise nothing happens. -/
def happy_step (env : Env) (sys : Sys) : Sys :=
  match sys.st.pending with
  | some _ => fire_pending env sys
  | none => if sys.st.thread_alive = true then video_step env sys else sys

def isDbInsert : Ev → Bool
  | Ev.dbInsert _ _ _ _ => true
  | _ => false

def isDbUpdate : Ev → Bool
  | Ev.dbUpdate _ _ _ => true
  | _ => false

def isRestEntered : Ev → Bool
  | Ev.restEntered => true
  | _ => false

def isRestTick : Ev → Bool
  | Ev.restTick => true
  | _ => false

def restEnteredCount (l : List Ev) : Nat := (l.filter isRestEntered).length

def restTickCount (l : List Ev) : Nat := (l.filter isRestTick).length

/-- An environment in which every video opens, reports 30 fps and has a
300-frame stream. -/
def envAll : Env := ⟨fun _ => true, fun _ => 30, fun _ => 300⟩

def emptyWorkout : Workout := Workout.init "Empty" none

def oneExerciseWorkout : Workout := Workout.init "Legs" (some [some ⟨"a.mp4", 30⟩])

/-- Whether a database event is an update targeting the given record id. -/
def updateTargets (sid : Nat) : Ev → Bool
  | Ev.dbUpdate s _ _ => s == sid
  | _ => false

/-- Claim C3: starting a session on a workout with a non-empty active
exercise list inserts exactly one session record, with elapsed 0 and
completed false, captures the returned record id in session_id, positions
the engine at exercise 0 with a zeroed segment clock without destroying the
window, and every later terminal update (here: the close handler) targets
exactly that captured record id. -/
theorem c3_start_creates_one_record (env : Env) (w : Workout) (nid : Nat)
    (h : w.exercises.filterMap id ≠ []) :
    ((initPlayer env w nid).log.filter isDbInsert)
      = [Ev.dbInsert nid (if w.name = "" then "Untitled" else w.name) 0 false] ∧
    (initPlayer env w nid).st.session_id = some nid ∧
    (initPlayer env w nid).st.current_exercise_index = 0 ∧
    (initPlayer env w nid).st.current_time = 0 ∧
    (initPlayer env w nid).st.destroyed = false ∧
    ((on_close (initPlayer env w nid)).log.filter isDbUpdate).all
      (updateTargets nid) = true := by
  have hlen : ¬ (w.exercises.filterMap id).length ≤ 0 := by
    simpa [Nat.pos_iff_ne_zero] using List.length_pos.mpr h
  have hemp : (w.exercises.filterMap id).isEmpty = false := by
    simpa using h
  refine ⟨?_, ?_, ?_, ?_, ?_, ?_⟩ <;>
    by_cases ho : env.opens 0 = true <;>
    by_cases hnid : nid = 0 <;>
    simp [initPlayer, hemp, start_workout, load_exercise, hlen, releaseCapture,
      emit, modSt, initPlayerState, ho, hnid, on_close, isDbInsert, isDbUpdate,
      updateTargets, emitSessionUpdate]

theorem c3_start_creates_one_record_witness :
    ((initPlayer envAll oneExerciseWorkout 1).log.filter isDbInsert)
      = [Ev.dbInsert 1 (if oneExerciseWorkout.name = "" then "Untitled"
          else oneExerciseWorkout.name) 0 false] ∧
    (initPlayer envAll oneExerciseWorkout 1).st.session_id = some 1 ∧
    (initPlayer envAll oneExerciseWorkout 1).st.current_exercise_index = 0 ∧
    (initPlayer envAll oneExerciseWorkout 1).st.current_time = 0 ∧
    (initPlayer envAll oneExerciseWorkout 1).st.destroyed = false ∧
    ((on_close (initPlayer envAll oneExerciseWorkout 1)).log.filter isDbUpdate).all
      (updateTargets 1) = true :=
  c3_start_creates_one_record envAll oneExerciseWorkout 1 (by decide)

/-- Claim C4, counterexample to the claim as stated: on a workout with zero
active exercises the constructor does allocate before terminating — the
window object and the statistics-database handle come into existence (and
only then is the window destroyed), so the event log of the aborted
constructor is not empty, contradicting that playback on an empty workout
terminates before any state or resource is allocated. -/
theorem c4_allocation_precedes_empty_check :
    (initPlayer envAll emptyWorkout 1).log = [Ev.windowCreated, Ev.dbConnected] ∧
    (initPlayer envAll emptyWorkout 1).log ≠ [] ∧
    (initPlayer envAll emptyWorkout 1).st.destroyed = true := by
  refine ⟨?_, ?_, ?_⟩ <;> decide

/-- Claim C4 as amended: on a workout with zero active exercises the
constructor creates zero session records (no inserts and no updates),
performs zero playback state transitions (not playing, not resting, index
still 0, no session id), never builds the player interface, and destroys
the window at once — but the window object and the database handle are
created before the check, so the only logged events are those two
allocations. -/
theorem c4_empty_workout_no_session (env : Env) (w : Workout) (nid : Nat)
    (h : w.exercises.filterMap id = []) :
    (initPlayer env w nid).log.filter isDbInsert = [] ∧
    (initPlayer env w nid).log.filter isDbUpdate = [] ∧
    (initPlayer env w nid).st.destroyed = true ∧
    (initPlayer env w nid).st.ui_created = false ∧
    (initPlayer env w nid).st.session_id = none ∧
    (initPlayer env w nid).st.is_playing = false ∧
    (initPlayer env w nid).st.is_resting = false ∧
    (initPlayer env w nid).st.current_exercise_index = 0 ∧
    (initPlayer env w nid).log = [Ev.windowCreated, Ev.dbConnected] := by
  have hemp : (w.exercises.filterMap id).isEmpty = true := by simp [h]
  refine ⟨?_, ?_, ?_, ?_, ?_, ?_, ?_, ?_, ?_⟩ <;>
    simp [initPlayer, hemp, modSt, initPlayerState, isDbInsert, isDbUpdate]

theorem c4_empty_workout_no_session_witness :
    (initPlayer envAll emptyWorkout 3).log.filter isDbInsert = [] ∧
    (initPlayer envAll emptyWorkout 3).log.filter isDbUpdate = [] ∧
    (initPlayer envAll emptyWorkout 3).st.destroyed = true ∧
    (initPlayer envAll emptyWorkout 3).st.ui_created = false ∧
    (initPlayer envAll emptyWorkout 3).st.session_id = none ∧
    (initPlayer envAll emptyWorkout 3).st.is_playing = false ∧
    (initPlayer envAll emptyWorkout 3).st.is_resting = false ∧
    (initPlayer envAll emptyWorkout 3).st.current_exercise_index = 0 ∧
    (initPlayer envAll emptyWorkout 3).log = [Ev.windowCreated, Ev.dbConnected] :=
  c4_empty_workout_no_session envAll emptyWorkout 3 (by decide)

/-- A reachable race state: the single (hence last) segment has just ended,
the video thread has exited after scheduling on_exercise_complete (so the
terminal finishing transition is in progress), and nothing has fired yet. -/
def c1St : PlayerState :=
  { is_playing := true, is_paused := false, is_resting := false,
    current_exercise_index := 0, current_time := 30, total_elapsed := 30,
    session_id := some 1, workout_name := "Race",
    exercises := [⟨"a.mp4", 30⟩],
    fps := 30, video_open := true, video_pos := 17,
    stop_video_thread := false, thread_alive := false,
    pending := some Pending.exComplete, destroyed := false, ui_created := true }

def c1Sys0 : Sys :=
  { st := c1St,
    nextSessionId := 2,
    log := [Ev.windowCreated, Ev.dbConnected, Ev.uiCreated,
      Ev.dbInsert 1 "Race" 0 false, Ev.videoOpened 0] }

def c1AfterRace : Sys :=
  applyOp envAll PlayerOp.fireCb (applyOp envAll PlayerOp.close c1Sys0)

/-- Claim C1: close arriving while the finishing transition is already in
progress.  The close handler is processed first and writes completed =
false; the still-pending completion callback then fires (scheduled Tk
callbacks are not cancelled by destroy, session_id is never cleared and no
terminal flag guards finish_workout), and finish_workout writes completed =
true over it.  The session record thus receives two terminal persistence
writes, not exactly one — the claimed deduplication does not exist in the
code. -/
theorem c1_close_during_finish_two_terminal_writes :
    (c1AfterRace.log.filter isDbUpdate)
      = [Ev.dbUpdate 1 30 false, Ev.dbUpdate 1 30 true] ∧
    ¬ (c1AfterRace.log.filter isDbUpdate).length = 1 ∧
    c1AfterRace.st.session_id = some 1 := by
  refine ⟨?_, ?_, ?_⟩ <;> decide

/-- A reachable mid-rest state: the first of two exercises has completed,
the rest period is running with seven seconds left (the countdown callback
for 7 is scheduled), playback is unpaused. -/
def c2St : PlayerState :=
  { is_playing := true, is_paused := false, is_resting := true,
    current_exercise_index := 0, current_time := 30, total_elapsed := 33,
    session_id := some 1, workout_name := "W",
    exercises := [⟨"a.mp4", 30⟩, ⟨"b.mp4", 20⟩],
    fps := 30, video_open := false, video_pos := 0,
    stop_video_thread := true, thread_alive := false,
    pending := some (Pending.restCd 7), destroyed := false, ui_created := true }

def c2RestSys : Sys :=
  { st := c2St,
    nextSessionId := 2,
    log := [Ev.restEntered, Ev.restTick, Ev.restTick, Ev.restTick] }

/-- The state after: pause is pressed, the scheduled countdown tick fires
while paused (and is dropped without rescheduling), and resume is pressed. -/
def c2AfterResume : Sys :=
  applyOp envAll PlayerOp.toggle (applyOp envAll PlayerOp.fireCb
    (applyOp envAll PlayerOp.toggle c2RestSys))

/-- The stuck-rest configuration: still resting (or destroyed), with no
scheduled callback left, a dead video thread, and playback already started. -/
def StuckRest (i : Nat) (sys : Sys) : Prop :=
  sys.st.current_exercise_index = i ∧
  sys.st.pending = none ∧
  sys.st.thread_alive = false ∧
  sys.st.is_playing = true ∧
  (sys.st.is_resting = true ∨ sys.st.destroyed = true)

theorem stuckRest_preserved (env : Env) (op : PlayerOp) (sys : Sys) (i : Nat)
    (h : StuckRest i sys) : StuckRest i (applyOp env op sys) := by
  obtain ⟨hidx, hpend, halive, hplay, hrest⟩ := h
  cases op with
  | videoStep =>
    have he : applyOp env PlayerOp.videoStep sys = sys := by
      simp [applyOp, video_step, halive]
    rw [he]; exact ⟨hidx, hpend, halive, hplay, hrest⟩
  | fireCb =>
    have he : applyOp env PlayerOp.fireCb sys = sys := by
      simp [applyOp, fire_pending, hpend]
    rw [he]; exact ⟨hidx, hpend, halive, hplay, hrest⟩
  | toggle =>
    by_cases hd : sys.st.destroyed = true
    · have he : applyOp env PlayerOp.toggle sys = sys := by simp [applyOp, hd]
      rw [he]; exact ⟨hidx, hpend, halive, hplay, hrest⟩
    · have hrest' : sys.st.is_resting = true := by
        rcases hrest with hr | hr
        · exact hr
        · exact absurd hr hd
      unfold StuckRest
      cases hp : sys.st.is_paused <;>
        simp [applyOp, hd, toggle_play_pause, hplay, hrest', hp, modSt,
          start_video_playback, hidx, hpend, halive]
  | close =>
    by_cases hd : sys.st.destroyed = true
    · have he : applyOp env PlayerOp.close sys = sys := by simp [applyOp, hd]
      rw [he]; exact ⟨hidx, hpend, halive, hplay, hrest⟩
    · unfold StuckRest
      cases hs : sys.st.session_id with
      | none =>
        by_cases hv : sys.st.video_open = true <;>
          simp [applyOp, hd, on_close, releaseCapture, emitSessionUpdate, emit, modSt,
            hv, hs, hidx, hpend, halive, hplay]
      | some sid =>
        by_cases hz : sid = 0 <;>
          by_cases hv : sys.st.video_open = true <;>
            simp [applyOp, hd, on_close, releaseCapture, emitSessionUpdate, emit, modSt,
              hv, hs, hz, hidx, hpend, halive, hplay]

theorem stuckRest_runOps (env : Env) (ops : List PlayerOp) (i : Nat) :
    ∀ sys : Sys, StuckRest i sys → StuckRest i (runOps env ops sys) := by
  induction ops with
  | nil => intro sys h; exact h
  | cons op ops ih =>
    intro sys h
    exact ih _ (stuckRest_preserved env op sys i h)

/-- Claim C2: the pause flag does freeze both clocks (the dropped countdown
tick while paused changes no state, in particular total_elapsed), but a
session paused during a rest period never resumes its countdown: the fired
tick is dropped without rescheduling, the resume branch for a resting
session does nothing, and from the resulting state no sequence of
operations ever advances the exercise index or leaves the rest phase other
than by destroying the window — contradicting both the claim and the
source's own comment that the countdown resumes automatically. -/
theorem c2_pause_during_rest_never_resumes :
    (c2AfterResume.st.is_paused = false ∧
     c2AfterResume.st.is_resting = true ∧
     c2AfterResume.st.pending = none ∧
     c2AfterResume.st.total_elapsed = c2RestSys.st.total_elapsed ∧
     c2AfterResume.st.current_time = c2RestSys.st.current_time ∧
     c2AfterResume.log = c2RestSys.log) ∧
    ∀ ops : List PlayerOp,
      (runOps envAll ops c2AfterResume).st.current_exercise_index = 0 ∧
      ((runOps envAll ops c2AfterResume).st.is_resting = true ∨
        (runOps envAll ops c2AfterResume).st.destroyed = true) := by
  refine ⟨by refine ⟨?_, ?_, ?_, ?_, ?_, ?_⟩ <;> decide, ?_⟩
  intro ops
  have hstuck : StuckRest 0 c2AfterResume := by
    refine ⟨?_, ?_, ?_, ?_, Or.inl ?_⟩ <;> decide
  have hrun := stuckRest_runOps envAll ops 0 c2AfterResume hstuck
  exact ⟨hrun.1, hrun.2.2.2.2⟩

/-! Monotonicity of total_elapsed. -/

theorem emit_st (e : Ev) (sys : Sys) : (emit e sys).st = sys.st := rfl

theorem emitSessionUpdate_st (c : Bool) (sys : Sys) :
    (emitSessionUpdate c sys).st = sys.st := by
  unfold emitSessionUpdate
  split
  · split <;> rfl
  · rfl

theorem releaseCapture_st (sys : Sys) :
    (releaseCapture sys).st = { sys.st with video_open := false } := by
  by_cases hv : sys.st.video_open = true
  · simp [releaseCapture, hv, emit, modSt]
  · have hv' : sys.st.video_open = false := by simpa using hv
    simp only [releaseCapture, hv', Bool.false_eq_true, if_false]
    conv_rhs => rw [← hv']

theorem total_releaseCapture (sys : Sys) :
    (releaseCapture sys).st.total_elapsed = sys.st.total_elapsed := by
  rw [releaseCapture_st]

theorem total_finish (c : Bool) (sys : Sys) :
    (finish_workout c sys).st.total_elapsed = sys.st.total_elapsed := by
  unfold finish_workout
  simp [modSt, emit_st, emitSessionUpdate_st, releaseCapture_st]

theorem total_on_close (sys : Sys) :
    (on_close sys).st.total_elapsed = sys.st.total_elapsed := by
  unfold on_close
  simp [modSt, emit_st, emitSessionUpdate_st, releaseCapture_st]

theorem total_load (env : Env) (i : Nat) (sys : Sys) :
    (load_exercise env i sys).st.total_elapsed = sys.st.total_elapsed := by
  unfold load_exercise
  split
  · exact total_finish _ _
  · by_cases ho : env.opens i = true
    · by_cases hp : sys.st.is_playing = true ∧ sys.st.is_paused = false <;>
        simp [ho, hp, emit, modSt, releaseCapture_st, start_video_playback]
    · simp [ho, emit, modSt, releaseCapture_st]

theorem total_next (env : Env) (sys : Sys) :
    (next_exercise env sys).st.total_elapsed = sys.st.total_elapsed :=
  total_load env _ sys

theorem total_rest_countdown (env : Env) (k : Nat) (sys : Sys) :
    sys.st.total_elapsed ≤ (rest_countdown env k sys).st.total_elapsed := by
  unfold rest_countdown
  split_ifs
  · exact le_refl _
  · simp only [emit, modSt]
    exact le_add_of_nonneg_right (by norm_num)
  · rw [total_next]
    exact le_refl _
  · exact le_refl _

theorem total_show_rest (env : Env) (sys : Sys) :
    sys.st.total_elapsed ≤ (show_rest_period env sys).st.total_elapsed := by
  unfold show_rest_period
  dsimp only
  split_ifs
  · exact le_refl _
  · exact total_rest_countdown env 10 _

theorem total_exComplete (env : Env) (sys : Sys) :
    sys.st.total_elapsed ≤ (on_exercise_complete env sys).st.total_elapsed := by
  unfold on_exercise_complete
  dsimp only
  split_ifs
  · have h1 : (releaseCapture (modSt (fun st =>
        { st with stop_video_thread := true }) sys)).st.total_elapsed
          = sys.st.total_elapsed := by
      simp [modSt, releaseCapture_st]
    exact le_trans (le_of_eq h1.symm) (total_show_rest env _)
  · rw [total_finish]
    simp [modSt, releaseCapture_st]

theorem total_toggle (sys : Sys) :
    (toggle_play_pause sys).st.total_elapsed = sys.st.total_elapsed := by
  unfold toggle_play_pause
  dsimp only
  split_ifs <;> simp [start_video_playback, modSt]

theorem total_video_step (env : Env) (sys : Sys) (h : 0 ≤ sys.st.fps) :
    sys.st.total_elapsed ≤ (video_step env sys).st.total_elapsed := by
  unfold video_step
  dsimp only
  split_ifs <;> simp [emit, modSt, frameDelay]
  exact h

theorem total_fire (env : Env) (sys : Sys) :
    sys.st.total_elapsed ≤ (fire_pending env sys).st.total_elapsed := by
  unfold fire_pending
  rcases hp : sys.st.pending with _ | cb
  · exact le_refl _
  · cases cb with
    | exComplete => exact total_exComplete env _
    | restCd k => exact total_rest_countdown env k _
    | nextEx =>
      exact le_of_eq
        (total_next env (modSt (fun st => { st with pending := none }) sys)).symm

/-- Claim C7: across every externally triggerable operation of the engine —
a video-thread step, a scheduled-callback firing (completion, rest tick,
skip), the play/pause button, and the close handler — total_elapsed never
decreases (given the nonnegative frame rate every video source reports). -/
theorem c7_total_elapsed_monotone (env : Env) (op : PlayerOp) (sys : Sys)
    (h : 0 ≤ sys.st.fps) :
    sys.st.total_elapsed ≤ (applyOp env op sys).st.total_elapsed := by
  cases op with
  | videoStep => exact total_video_step env sys h
  | fireCb => exact total_fire env sys
  | toggle =>
    unfold applyOp
    split_ifs
    · exact le_refl _
    · exact le_of_eq (total_toggle sys).symm
  | close =>
    unfold applyOp
    split_ifs
    · exact le_refl _
    · exact le_of_eq (total_on_close sys).symm

theorem c7_total_elapsed_monotone_witness :
    (0 : ℚ) ≤ (initPlayer envAll oneExerciseWorkout 2).st.fps ∧
    (initPlayer envAll oneExerciseWorkout 2).st.total_elapsed ≤
      (applyOp envAll PlayerOp.videoStep
        (initPlayer envAll oneExerciseWorkout 2)).st.total_elapsed :=
  ⟨by decide, c7_total_elapsed_monotone envAll PlayerOp.videoStep _ (by decide)⟩

/-! The video loop: looping-at-end-of-stream and termination exactly at the
assigned duration.  The loop is analysed through the no-user-input scheduler
happy_step; while the thread is alive with no pending callback, a scheduler
step is exactly one video_loop iteration. -/

/-- The system state at the exit of the video loop: the clocks and position
have advanced to some final values, the thread is dead, the completion
callback is scheduled, and some frame reads were logged. -/
def loopExitSys (sys : Sys) (t2 q2 : ℚ) (p2 : Nat) (fr : List Ev) : Sys :=
  { st :=
      { sys.st with
        current_time := t2
        total_elapsed := q2
        video_pos := p2
        thread_alive := false
        pending := some Pending.exComplete }
    nextSessionId := sys.nextSessionId
    log := sys.log ++ fr }

/-- The system state after one productive loop iteration: one frame read,
position and both clocks advanced by the frame delay. -/
def videoProdSys (sys : Sys) : Sys :=
  { st :=
      { sys.st with
        video_pos := sys.st.video_pos + 1
        current_time := sys.st.current_time + frameDelay sys.st
        total_elapsed := sys.st.total_elapsed + frameDelay sys.st }
    nextSessionId := sys.nextSessionId
    log := sys.log ++ [Ev.frameRead sys.st.current_exercise_index] }

/-- Outstanding whole loop iterations, counted as the ceiling of remaining
segment time over the frame delay. -/
def loopGap (sys : Sys) : Nat :=
  Nat.ceil ((currentDuration sys.st - sys.st.current_time) / frameDelay sys.st)

/-- Termination measure: restart iterations do not shrink the gap, but a
restart is always followed by a productive iteration, so two scheduler steps
shrink the measure. -/
def loopMeasure (env : Env) (sys : Sys) : Nat :=
  2 * loopGap sys +
    (if env.frames sys.st.current_exercise_index ≤ sys.st.video_pos then 1 else 0)

theorem gap_decreases {x : ℚ} (hx : 0 < x) : Nat.ceil (x - 1) < Nat.ceil x := by
  have h1 : ((Nat.ceil (x - 1) : Nat) : ℚ) < x := by
    by_cases hx1 : 1 ≤ x
    · have h0 : (0 : ℚ) ≤ x - 1 := by linarith
      have := Nat.ceil_lt_add_one h0
      linarith
    · have h0 : x - 1 ≤ 0 := by linarith
      have hc : Nat.ceil (x - 1) = 0 := by
        rw [Nat.ceil_eq_zero]
        exact h0
      rw [hc]
      exact_mod_cast hx
  exact Nat.lt_ceil.mpr h1

theorem loop_exit (env : Env) (sys : Sys)
    (halive : sys.st.thread_alive = true)
    (hstop : sys.st.stop_video_thread = false)
    (hpend : sys.st.pending = none)
    (hd : currentDuration sys.st ≤ sys.st.current_time) :
    happy_step env sys
      = loopExitSys sys sys.st.current_time sys.st.total_elapsed sys.st.video_pos [] := by
  have hnlt : ¬ sys.st.current_time < currentDuration sys.st := not_lt.mpr hd
  simp [happy_step, hpend, halive, video_step, hstop, hnlt, loopExitSys, modSt, emit]

theorem loop_prod_step (env : Env) (sys : Sys)
    (halive : sys.st.thread_alive = true)
    (hstop : sys.st.stop_video_thread = false)
    (hpause : sys.st.is_paused = false)
    (hpend : sys.st.pending = none)
    (hlt : sys.st.current_time < currentDuration sys.st)
    (hpos : sys.st.video_pos < env.frames sys.st.current_exercise_index) :
    happy_step env sys = videoProdSys sys := by
  simp [happy_step, hpend, halive, video_step, hstop, hlt, hpause, hpos,
    videoProdSys, modSt, emit]

theorem loop_restart_step (env : Env) (sys : Sys)
    (halive : sys.st.thread_alive = true)
    (hstop : sys.st.stop_video_thread = false)
    (hpause : sys.st.is_paused = false)
    (hpend : sys.st.pending = none)
    (hlt : sys.st.current_time < currentDuration sys.st)
    (hpos : env.frames sys.st.current_exercise_index ≤ sys.st.video_pos) :
    happy_step env sys = modSt (fun st => { st with video_pos := 0 }) sys := by
  simp [happy_step, hpend, halive, video_step, hstop, hlt, hpause,
    not_lt.mpr hpos, modSt]

/-- The video-step restart analysed directly on one loop iteration: at end
of stream (position at or past the stream length) with segment time still
below the duration, the iteration resets the position to the start of the
stream and changes nothing else — no clock advances and no frame is
displayed. -/
theorem video_step_restart (env : Env) (sys : Sys)
    (halive : sys.st.thread_alive = true)
    (hstop : sys.st.stop_video_thread = false)
    (hpause : sys.st.is_paused = false)
    (hlt : sys.st.current_time < currentDuration sys.st)
    (hpos : env.frames sys.st.current_exercise_index ≤ sys.st.video_pos) :
    video_step env sys = modSt (fun st => { st with video_pos := 0 }) sys := by
  simp [video_step, halive, hstop, hlt, hpause, not_lt.mpr hpos, modSt]

theorem loop_progress (env : Env) : ∀ (m : Nat) (sys : Sys),
    loopMeasure env sys ≤ m →
    sys.st.thread_alive = true → sys.st.stop_video_thread = false →
    sys.st.is_paused = false → sys.st.pending = none →
    1 ≤ env.frames sys.st.current_exercise_index → 0 < sys.st.fps →
    ∃ n t2 q2 p2 fr,
      (happy_step env)^[n] sys = loopExitSys sys t2 q2 p2 fr ∧
      currentDuration sys.st ≤ t2 ∧ sys.st.total_elapsed ≤ q2 ∧
      ∀ e ∈ fr, e = Ev.frameRead sys.st.current_exercise_index := by
  intro m
  induction m with
  | zero =>
    intro sys hm halive hstop hpause hpend hframes hfps
    have hδ : 0 < frameDelay sys.st := by
      unfold frameDelay
      exact one_div_pos.mpr hfps
    have hd : currentDuration sys.st ≤ sys.st.current_time := by
      by_contra hlt
      push_neg at hlt
      have hx : 0 < (currentDuration sys.st - sys.st.current_time) / frameDelay sys.st :=
        div_pos (by linarith) hδ
      have hg : 0 < loopGap sys := by
        unfold loopGap
        exact Nat.ceil_pos.mpr hx
      have : 2 ≤ loopMeasure env sys := by
        unfold loopMeasure
        omega
      omega
    refine ⟨1, sys.st.current_time, sys.st.total_elapsed, sys.st.video_pos, [],
      ?_, hd, le_refl _, by simp⟩
    rw [Function.iterate_one]
    exact loop_exit env sys halive hstop hpend hd
  | succ m ih =>
    intro sys hm halive hstop hpause hpend hframes hfps
    have hδ : 0 < frameDelay sys.st := by
      unfold frameDelay
      exact one_div_pos.mpr hfps
    by_cases hd : currentDuration sys.st ≤ sys.st.current_time
    · refine ⟨1, sys.st.current_time, sys.st.total_elapsed, sys.st.video_pos, [],
        ?_, hd, le_refl _, by simp⟩
      rw [Function.iterate_one]
      exact loop_exit env sys halive hstop hpend hd
    · push_neg at hd
      have hx : 0 < (currentDuration sys.st - sys.st.current_time) / frameDelay sys.st :=
        div_pos (by linarith) hδ
      have hgpos : 0 < loopGap sys := by
        unfold loopGap
        exact Nat.ceil_pos.mpr hx
      by_cases hpos : sys.st.video_pos < env.frames sys.st.current_exercise_index
      · -- productive iteration
        have hstep := loop_prod_step env sys halive hstop hpause hpend hd hpos
        have hgap2 : loopGap (videoProdSys sys) < loopGap sys := by
          have e1 : loopGap (videoProdSys sys)
              = Nat.ceil ((currentDuration sys.st
                  - (sys.st.current_time + frameDelay sys.st)) / frameDelay sys.st) := rfl
          have e2 : (currentDuration sys.st
                - (sys.st.current_time + frameDelay sys.st)) / frameDelay sys.st
              = (currentDuration sys.st - sys.st.current_time) / frameDelay sys.st - 1 := by
            rw [show currentDuration sys.st - (sys.st.current_time + frameDelay sys.st)
                = (currentDuration sys.st - sys.st.current_time) - frameDelay sys.st by ring]
            rw [sub_div, div_self (ne_of_gt hδ)]
          rw [e1, e2]
          exact gap_decreases hx
        have hm2 : loopMeasure env (videoProdSys sys) ≤ m := by
          have hms : loopMeasure env sys = 2 * loopGap sys := by
            unfold loopMeasure
            rw [if_neg (not_le.mpr hpos)]
            omega
          have hms2 : loopMeasure env (videoProdSys sys)
              ≤ 2 * loopGap (videoProdSys sys) + 1 := by
            unfold loopMeasure
            split_ifs <;> omega
          omega
        obtain ⟨n, t2, q2, p2, fr, heq, hd2, hq2, hfr⟩ :=
          ih (videoProdSys sys) hm2 halive hstop hpause hpend hframes hfps
        refine ⟨n + 1, t2, q2, p2,
          Ev.frameRead sys.st.current_exercise_index :: fr, ?_, hd2, ?_, ?_⟩
        · rw [Function.iterate_succ_apply, hstep, heq]
          simp [loopExitSys, videoProdSys]
        · have hq0 : sys.st.total_elapsed ≤ sys.st.total_elapsed + frameDelay sys.st :=
            le_add_of_nonneg_right (le_of_lt hδ)
          exact le_trans hq0 hq2
        · intro e he
          rcases List.mem_cons.mp he with rfl | he
          · rfl
          · exact hfr e he
      · -- restart iteration
        push_neg at hpos
        have hstep := loop_restart_step env sys halive hstop hpause hpend hd hpos
        have hm2 : loopMeasure env (modSt (fun st => { st with video_pos := 0 }) sys) ≤ m := by
          have hms : loopMeasure env sys = 2 * loopGap sys + 1 := by
            unfold loopMeasure
            rw [if_pos hpos]
          have hms2 : loopMeasure env (modSt (fun st => { st with video_pos := 0 }) sys)
              = 2 * loopGap sys
                + (if env.frames sys.st.current_exercise_index ≤ 0 then 1 else 0) := rfl
          rw [if_neg (by omega : ¬ env.frames sys.st.current_exercise_index ≤ 0)] at hms2
          omega
        obtain ⟨n, t2, q2, p2, fr, heq, hd2, hq2, hfr⟩ :=
          ih (modSt (fun st => { st with video_pos := 0 }) sys) hm2 halive hstop
            hpause hpend hframes hfps
        refine ⟨n + 1, t2, q2, p2, fr, ?_, hd2, hq2, hfr⟩
        rw [Function.iterate_succ_apply, hstep, heq]
        rfl

/-- Claim C6: for a running segment (live unpaused thread, stop flag clear,
no pending callback, a stream of at least one frame, positive frame rate):
a loop iteration that hits end-of-stream before the assigned duration has
elapsed resets the source to its first frame and changes nothing else — in
particular neither clock advances on the restart step — and the loop goes on
reading frames until it exits with the completion callback scheduled and
current_time at or above the assigned duration, never earlier. -/
theorem c6_stream_end_restarts_until_duration (env : Env) (sys : Sys)
    (halive : sys.st.thread_alive = true)
    (hstop : sys.st.stop_video_thread = false)
    (hpause : sys.st.is_paused = false)
    (hpend : sys.st.pending = none)
    (hframes : 1 ≤ env.frames sys.st.current_exercise_index)
    (hfps : 0 < sys.st.fps) :
    (env.frames sys.st.current_exercise_index ≤ sys.st.video_pos →
      sys.st.current_time < currentDuration sys.st →
      video_step env sys = modSt (fun st => { st with video_pos := 0 }) sys) ∧
    ∃ n t2 q2 p2 fr,
      (happy_step env)^[n] sys = loopExitSys sys t2 q2 p2 fr ∧
      currentDuration sys.st ≤ t2 ∧
      sys.st.total_elapsed ≤ q2 ∧
      ∀ e ∈ fr, e = Ev.frameRead sys.st.current_exercise_index := by
  constructor
  · intro hpos hlt
    exact video_step_restart env sys halive hstop hpause hlt hpos
  · exact loop_progress env (loopMeasure env sys) sys (le_refl _) halive hstop
      hpause hpend hframes hfps

/-- The end-of-stream scenario of the spec: a five-frame stream played at
one frame per second inside a twenty-second segment, observed at the moment
the stream first ends (position 5, five seconds elapsed). -/
def envLoop : Env := ⟨fun _ => true, fun _ => 1, fun _ => 5⟩

def c6St : PlayerState :=
  { is_playing := true, is_paused := false, is_resting := false,
    current_exercise_index := 0, current_time := 5, total_elapsed := 5,
    session_id := some 1, workout_name := "W",
    exercises := [⟨"a.mp4", 20⟩],
    fps := 1, video_open := true, video_pos := 5,
    stop_video_thread := false, thread_alive := true,
    pending := none, destroyed := false, ui_created := true }

def c6Sys : Sys := { st := c6St, nextSessionId := 2, log := [] }

theorem c6_stream_end_restarts_until_duration_witness :
    (1 ≤ envLoop.frames c6Sys.st.current_exercise_index ∧ 0 < c6Sys.st.fps ∧
      envLoop.frames c6Sys.st.current_exercise_index ≤ c6Sys.st.video_pos ∧
      c6Sys.st.current_time < currentDuration c6Sys.st) ∧
    video_step envLoop c6Sys = modSt (fun st => { st with video_pos := 0 }) c6Sys ∧
    ∃ n t2 q2 p2 fr,
      (happy_step envLoop)^[n] c6Sys = loopExitSys c6Sys t2 q2 p2 fr ∧
      currentDuration c6Sys.st ≤ t2 ∧
      c6Sys.st.total_elapsed ≤ q2 ∧
      ∀ e ∈ fr, e = Ev.frameRead c6Sys.st.current_exercise_index := by
  have h := c6_stream_end_restarts_until_duration envLoop c6Sys (by decide) (by decide)
    (by decide) (by decide) (by decide) (by decide)
  exact ⟨⟨by decide, by decide, by decide, by decide⟩,
    h.1 (by decide) (by decide), h.2⟩

/-! The full no-user-input session run, for counting rest periods. -/

/-- State after the completion callback fires between two segments: capture
released, rest flag set, the rest entry logged, and the first of the ten
countdown ticks already executed (rest_countdown is called directly with 10,
ticks one second, and schedules itself with 9). -/
def restBeginSys (sys : Sys) : Sys :=
  { st :=
      { sys.st with
        stop_video_thread := true
        video_open := false
        is_resting := true
        total_elapsed := sys.st.total_elapsed + 1
        pending := some (Pending.restCd 9) }
    nextSessionId := sys.nextSessionId
    log := sys.log ++ [Ev.videoReleased, Ev.restEntered, Ev.restTick] }

/-- State after the completion callback fires on the last segment: the
workout is finished, one completed-true session write and the dialog are
logged, the window destroyed. -/
def finishedSys (sid : Nat) (sys : Sys) : Sys :=
  { st :=
      { sys.st with
        stop_video_thread := true
        video_open := false
        pending := none
        destroyed := true }
    nextSessionId := sys.nextSessionId
    log := sys.log ++ [Ev.videoReleased,
      Ev.dbUpdate sid (pyTruncQ sys.st.total_elapsed) true, Ev.dialogShown true] }

/-- State after one countdown tick fires: one second on the total clock,
one logged tick, the decremented callback scheduled. -/
def restTickStep (j : Nat) (sys : Sys) : Sys :=
  { st :=
      { sys.st with
        total_elapsed := sys.st.total_elapsed + 1
        pending := some (Pending.restCd j) }
    nextSessionId := sys.nextSessionId
    log := sys.log ++ [Ev.restTick] }

/-- State after j further countdown ticks have fired: total_elapsed one
second per tick, the zero-count callback scheduled. -/
def restTicksSys (j : Nat) (sys : Sys) : Sys :=
  { st :=
      { sys.st with
        total_elapsed := sys.st.total_elapsed + j
        pending := some (Pending.restCd 0) }
    nextSessionId := sys.nextSessionId
    log := sys.log ++ List.replicate j Ev.restTick }

/-- State after the zero-count countdown callback fires: the rest ends and
the next exercise is loaded and begins playing. -/
def nextSegSys (env : Env) (sys : Sys) : Sys :=
  { st :=
      { sys.st with
        is_resting := false
        pending := none
        current_exercise_index := sys.st.current_exercise_index + 1
        current_time := 0
        video_open := true
        video_pos := 0
        fps := if env.fps (sys.st.current_exercise_index + 1) = 0 then 30
          else env.fps (sys.st.current_exercise_index + 1)
        stop_video_thread := false
        thread_alive := true }
    nextSessionId := sys.nextSessionId
    log := sys.log ++ [Ev.videoOpened (sys.st.current_exercise_index + 1)] }

theorem fire_complete_rest (env : Env) (sys : Sys)
    (hpend : sys.st.pending = some Pending.exComplete)
    (hlt : sys.st.current_exercise_index + 1 < sys.st.exercises.length)
    (hdest : sys.st.destroyed = false)
    (hpause : sys.st.is_paused = false)
    (hvo : sys.st.video_open = true) :
    happy_step env sys = restBeginSys sys := by
  simp [happy_step, hpend, fire_pending, on_exercise_complete, releaseCapture,
    show_rest_period, rest_countdown, next_exercise, emit, modSt, restBeginSys,
    hlt, hdest, hpause, hvo]

theorem fire_complete_finish (env : Env) (sys : Sys) (sid : Nat)
    (hpend : sys.st.pending = some Pending.exComplete)
    (hge : ¬ sys.st.current_exercise_index + 1 < sys.st.exercises.length)
    (hvo : sys.st.video_open = true)
    (hsess : sys.st.session_id = some sid)
    (hsid : sid ≠ 0) :
    happy_step env sys = finishedSys sid sys := by
  simp [happy_step, hpend, fire_pending, on_exercise_complete, releaseCapture,
    finish_workout, emitSessionUpdate, emit, modSt, finishedSys,
    hge, hvo, hsess, hsid]

theorem rest_ticks_run (env : Env) : ∀ (j : Nat) (sys : Sys),
    sys.st.pending = some (Pending.restCd j) → sys.st.destroyed = false →
    sys.st.is_resting = true → sys.st.is_paused = false →
    (happy_step env)^[j] sys = restTicksSys j sys := by
  intro j
  induction j with
  | zero =>
    intro sys hpend hdest hrest hpause
    show sys = restTicksSys 0 sys
    unfold restTicksSys
    simp only [Nat.cast_zero, add_zero, List.replicate_zero, List.append_nil]
    rw [← hpend]
  | succ j ih =>
    intro sys hpend hdest hrest hpause
    have hstep : happy_step env sys = restTickStep j sys := by
      simp [happy_step, hpend, fire_pending, rest_countdown, emit, modSt,
        restTickStep, hdest, hrest, hpause]
    have hrec := ih (restTickStep j sys) rfl hdest hrest hpause
    rw [Function.iterate_succ_apply, hstep, hrec]
    have htot : sys.st.total_elapsed + 1 + (j : ℚ)
        = sys.st.total_elapsed + ((j + 1 : Nat) : ℚ) := by
      push_cast
      ring
    simp [restTicksSys, restTickStep, List.replicate_succ, htot]

theorem fire_rest_zero_loads (env : Env) (sys : Sys)
    (hpend : sys.st.pending = some (Pending.restCd 0))
    (hdest : sys.st.destroyed = false)
    (hrest : sys.st.is_resting = true)
    (hpause : sys.st.is_paused = false)
    (hplay : sys.st.is_playing = true)
    (hvo : sys.st.video_open = false)
    (hlt : sys.st.current_exercise_index + 1 < sys.st.exercises.length)
    (ho : env.opens (sys.st.current_exercise_index + 1) = true) :
    happy_step env sys = nextSegSys env sys := by
  have hnle : ¬ sys.st.exercises.length ≤ sys.st.current_exercise_index + 1 :=
    not_le.mpr hlt
  simp [happy_step, hpend, fire_pending, rest_countdown, next_exercise,
    load_exercise, releaseCapture, start_video_playback, emit, modSt, nextSegSys,
    hdest, hrest, hpause, hplay, hvo, hnle, ho]

theorem restEnteredCount_append (l1 l2 : List Ev) :
    restEnteredCount (l1 ++ l2) = restEnteredCount l1 + restEnteredCount l2 := by
  simp [restEnteredCount, List.filter_append]

theorem restTickCount_append (l1 l2 : List Ev) :
    restTickCount (l1 ++ l2) = restTickCount l1 + restTickCount l2 := by
  simp [restTickCount, List.filter_append]

theorem frameReads_counts (i : Nat) : ∀ (fr : List Ev),
    (∀ e ∈ fr, e = Ev.frameRead i) →
    restEnteredCount fr = 0 ∧ restTickCount fr = 0 ∧ fr.filter isDbUpdate = [] := by
  intro fr
  induction fr with
  | nil => intro _; exact ⟨rfl, rfl, rfl⟩
  | cons e fr ih =>
    intro h
    have he : e = Ev.frameRead i := h e (List.mem_cons_self e fr)
    obtain ⟨h1, h2, h3⟩ := ih (fun x hx => h x (List.mem_cons_of_mem _ hx))
    subst he
    refine ⟨?_, ?_, ?_⟩ <;>
      simp [restEnteredCount, restTickCount, List.filter, isRestEntered, isRestTick,
        isDbUpdate] at h1 h2 h3 ⊢ <;> assumption

theorem replicate_tick_counts (j : Nat) :
    restEnteredCount (List.replicate j Ev.restTick) = 0 ∧
    restTickCount (List.replicate j Ev.restTick) = j ∧
    (List.replicate j Ev.restTick).filter isDbUpdate = [] := by
  induction j with
  | zero => exact ⟨rfl, rfl, rfl⟩
  | succ j ih =>
    obtain ⟨h1, h2, h3⟩ := ih
    refine ⟨?_, ?_, ?_⟩ <;>
      simp [List.replicate_succ, restEnteredCount, restTickCount, List.filter,
        isRestEntered, isRestTick, isDbUpdate] at h1 h2 h3 ⊢ <;>
      simp [restEnteredCount, restTickCount] at * <;> omega

/-- The segment-start configuration: a segment is loaded and playing with
nothing scheduled, the window alive, the session record id captured. -/
def SegInv (env : Env) (exs : List Exercise) (sid : Nat) (i : Nat) (sys : Sys) : Prop :=
  sys.st.exercises = exs ∧
  sys.st.current_exercise_index = i ∧
  sys.st.thread_alive = true ∧
  sys.st.stop_video_thread = false ∧
  sys.st.is_paused = false ∧
  sys.st.is_playing = true ∧
  sys.st.is_resting = false ∧
  sys.st.pending = none ∧
  sys.st.destroyed = false ∧
  sys.st.video_open = true ∧
  sys.st.session_id = some sid ∧
  0 < sys.st.fps

theorem session_run (env : Env) (exs : List Exercise) (sid : Nat)
    (hopen : ∀ j, env.opens j = true)
    (hframes : ∀ j, 1 ≤ env.frames j)
    (hfps : ∀ j, 0 ≤ env.fps j)
    (hsid : sid ≠ 0) :
    ∀ (k i : Nat) (sys : Sys), exs.length = i + k + 1 →
      SegInv env exs sid i sys →
      ∃ (n : Nat) (tail : List Ev) (el : Int),
        ((happy_step env)^[n] sys).st.destroyed = true ∧
        ((happy_step env)^[n] sys).log = sys.log ++ tail ∧
        restEnteredCount tail = k ∧
        restTickCount tail = 10 * k ∧
        tail.filter isDbUpdate = [Ev.dbUpdate sid el true] := by
  intro k
  induction k with
  | zero =>
    intro i sys hN hinv
    obtain ⟨hexs, hidx, halive, hstop, hpause, hplay, hrest, hpend, hdest, hvo,
      hsess, hfpspos⟩ := hinv
    obtain ⟨n1, t2, q2, p2, fr, heq1, hd2, hq2, hfr⟩ :=
      loop_progress env (loopMeasure env sys) sys (le_refl _) halive hstop hpause hpend
        (hframes _) hfpspos
    have hge : ¬ (loopExitSys sys t2 q2 p2 fr).st.current_exercise_index + 1
        < (loopExitSys sys t2 q2 p2 fr).st.exercises.length := by
      show ¬ sys.st.current_exercise_index + 1 < sys.st.exercises.length
      rw [hidx, hexs]
      omega
    have hB := fire_complete_finish env (loopExitSys sys t2 q2 p2 fr) sid rfl hge hvo
      hsess hsid
    have hcomb : (happy_step env)^[n1 + 1] sys
        = finishedSys sid (loopExitSys sys t2 q2 p2 fr) := by
      rw [Function.iterate_succ_apply', heq1, hB]
    obtain ⟨hfr1, hfr2, hfr3⟩ := frameReads_counts _ fr hfr
    refine ⟨n1 + 1, fr ++ [Ev.videoReleased,
      Ev.dbUpdate sid (pyTruncQ q2) true, Ev.dialogShown true], pyTruncQ q2,
      ?_, ?_, ?_, ?_, ?_⟩
    · rw [hcomb]
      rfl
    · rw [hcomb]
      simp [finishedSys, loopExitSys, List.append_assoc]
    · rw [restEnteredCount_append, hfr1]
      rfl
    · rw [restTickCount_append, hfr2]
      rfl
    · rw [List.filter_append, hfr3]
      rfl
  | succ k ihk =>
    intro i sys hN hinv
    obtain ⟨hexs, hidx, halive, hstop, hpause, hplay, hrest, hpend, hdest, hvo,
      hsess, hfpspos⟩ := hinv
    obtain ⟨n1, t2, q2, p2, fr, heq1, hd2, hq2, hfr⟩ :=
      loop_progress env (loopMeasure env sys) sys (le_refl _) halive hstop hpause hpend
        (hframes _) hfpspos
    have hlt1 : (loopExitSys sys t2 q2 p2 fr).st.current_exercise_index + 1
        < (loopExitSys sys t2 q2 p2 fr).st.exercises.length := by
      show sys.st.current_exercise_index + 1 < sys.st.exercises.length
      rw [hidx, hexs]
      omega
    have hA := fire_complete_rest env (loopExitSys sys t2 q2 p2 fr) rfl hlt1 hdest
      hpause hvo
    have hC := rest_ticks_run env 9 (restBeginSys (loopExitSys sys t2 q2 p2 fr)) rfl
      hdest rfl hpause
    have hlt2 : (restTicksSys 9 (restBeginSys
        (loopExitSys sys t2 q2 p2 fr))).st.current_exercise_index + 1
        < (restTicksSys 9 (restBeginSys
            (loopExitSys sys t2 q2 p2 fr))).st.exercises.length := by
      show sys.st.current_exercise_index + 1 < sys.st.exercises.length
      rw [hidx, hexs]
      omega
    have hD := fire_rest_zero_loads env
      (restTicksSys 9 (restBeginSys (loopExitSys sys t2 q2 p2 fr))) rfl hdest rfl
      hpause hplay rfl hlt2 (hopen _)
    have hinv2 : SegInv env exs sid (i + 1) (nextSegSys env
        (restTicksSys 9 (restBeginSys (loopExitSys sys t2 q2 p2 fr)))) := by
      refine ⟨hexs, ?_, rfl, rfl, hpause, hplay, rfl, rfl, hdest, rfl, hsess, ?_⟩
      · show sys.st.current_exercise_index + 1 = i + 1
        rw [hidx]
      · show 0 < (if env.fps (sys.st.current_exercise_index + 1) = 0 then 30
          else env.fps (sys.st.current_exercise_index + 1))
        split_ifs with h0
        · norm_num
        · exact lt_of_le_of_ne (hfps _) (Ne.symm h0)
    have hN2 : exs.length = (i + 1) + k + 1 := by omega
    obtain ⟨n2, tail2, el, h2dest, h2log, h2ent, h2tick, h2upd⟩ :=
      ihk (i + 1) _ hN2 hinv2
    have hcomb : (happy_step env)^[n2 + (1 + (9 + (1 + n1)))] sys
        = (happy_step env)^[n2] (nextSegSys env
            (restTicksSys 9 (restBeginSys (loopExitSys sys t2 q2 p2 fr)))) := by
      rw [Function.iterate_add_apply, Function.iterate_add_apply,
        Function.iterate_add_apply, Function.iterate_add_apply, heq1,
        Function.iterate_one, hA, hC, hD]
    obtain ⟨hfr1, hfr2, hfr3⟩ := frameReads_counts _ fr hfr
    obtain ⟨hr1, hr2, hr3⟩ := replicate_tick_counts 9
    refine ⟨n2 + (1 + (9 + (1 + n1))),
      fr ++ [Ev.videoReleased, Ev.restEntered, Ev.restTick]
        ++ List.replicate 9 Ev.restTick
        ++ [Ev.videoOpened (sys.st.current_exercise_index + 1)]
        ++ tail2, el, ?_, ?_, ?_, ?_, ?_⟩
    · rw [hcomb]
      exact h2dest
    · rw [hcomb, h2log]
      simp [nextSegSys, restTicksSys, restBeginSys, loopExitSys, List.append_assoc]
    · rw [restEnteredCount_append, restEnteredCount_append, restEnteredCount_append,
        restEnteredCount_append, hfr1, h2ent, hr1]
      have c1 : restEnteredCount [Ev.videoReleased, Ev.restEntered, Ev.restTick] = 1 := rfl
      have c2 : restEnteredCount [Ev.videoOpened (sys.st.current_exercise_index + 1)]
          = 0 := rfl
      rw [c1, c2]
      omega
    · rw [restTickCount_append, restTickCount_append, restTickCount_append,
        restTickCount_append, hfr2, h2tick, hr2]
      have c1 : restTickCount [Ev.videoReleased, Ev.restEntered, Ev.restTick] = 1 := rfl
      have c2 : restTickCount [Ev.videoOpened (sys.st.current_exercise_index + 1)]
          = 0 := rfl
      rw [c1, c2]
      omega
    · rw [List.filter_append, List.filter_append, List.filter_append,
        List.filter_append, hfr3, h2upd, hr3]
      have c1 : List.filter isDbUpdate
          [Ev.videoReleased, Ev.restEntered, Ev.restTick] = [] := rfl
      have c2 : List.filter isDbUpdate
          [Ev.videoOpened (sys.st.current_exercise_index + 1)] = [] := rfl
      rw [c1, c2]
      rfl

theorem active_of_all_some (exs : List Exercise) (pad : Nat) :
    (exs.map some ++ List.replicate pad none).filterMap id = exs := by
  rw [List.filterMap_append]
  have h1 : (exs.map some).filterMap id = exs := by
    induction exs with
    | nil => rfl
    | cons e exs ih => simp [List.filterMap_cons, ih]
  have h2 : (List.replicate pad (none : Option Exercise)).filterMap id = [] := by
    induction pad with
    | zero => rfl
    | succ p ih => simp [List.replicate_succ, List.filterMap_cons, ih]
  rw [h1, h2, List.append_nil]

/-- A freshly started session over the given exercises: the player is
constructed on a workout holding exactly these exercises, and the user
presses start once. -/
def startedSys (env : Env) (exs : List Exercise) : Sys :=
  applyOp env PlayerOp.toggle
    (initPlayer env (Workout.init "W" (some (exs.map some))) 1)

theorem started_props (env : Env) (exs : List Exercise)
    (hne : exs ≠ []) (ho : env.opens 0 = true) (hf : 0 ≤ env.fps 0) :
    SegInv env exs 1 0 (startedSys env exs) ∧
    restEnteredCount (startedSys env exs).log = 0 ∧
    restTickCount (startedSys env exs).log = 0 ∧
    (startedSys env exs).log.filter isDbUpdate = [] := by
  have hact : (Workout.init "W" (some (exs.map some))).exercises.filterMap id = exs := by
    show (exs.map some ++ List.replicate (10 - (exs.map some).length) none).filterMap id
      = exs
    exact active_of_all_some exs _
  have hlen2 : ¬ exs.length ≤ 0 := by
    simpa [Nat.pos_iff_ne_zero] using List.length_pos.mpr hne
  have hemp2 : exs.isEmpty = false := by
    simpa using hne
  refine ⟨⟨?_, ?_, ?_, ?_, ?_, ?_, ?_, ?_, ?_, ?_, ?_, ?_⟩, ?_, ?_, ?_⟩ <;>
    simp [startedSys, applyOp, initPlayer, hemp2, start_workout, load_exercise, hlen2,
      releaseCapture, emit, modSt, initPlayerState, ho, toggle_play_pause,
      start_video_playback, hact, restEnteredCount, restTickCount,
      isRestEntered, isRestTick, isDbUpdate, isDbInsert]
  split_ifs with h0
  · norm_num
  · exact lt_of_le_of_ne hf (Ne.symm h0)

/-- Claim C5: a session over N ≥ 1 active exercises whose video sources all
open, driven to completion with no user interruption, enters exactly N − 1
rest periods (none before the first exercise, none after the last: one
restEntered event per gap between consecutive exercises), each consisting
of exactly ten one-second countdown ticks, and ends destroyed with exactly
one completed-true session write. -/
theorem c5_rest_count (env : Env) (exs : List Exercise)
    (hne : exs ≠ []) (hopen : ∀ j, env.opens j = true)
    (hframes : ∀ j, 1 ≤ env.frames j) (hfps : ∀ j, 0 ≤ env.fps j) :
    ∃ n,
      ((happy_step env)^[n] (startedSys env exs)).st.destroyed = true ∧
      restEnteredCount ((happy_step env)^[n] (startedSys env exs)).log
        = exs.length - 1 ∧
      restTickCount ((happy_step env)^[n] (startedSys env exs)).log
        = 10 * (exs.length - 1) ∧
      ∃ el, (((happy_step env)^[n] (startedSys env exs)).log.filter isDbUpdate)
        = [Ev.dbUpdate 1 el true] := by
  obtain ⟨hinv, hc1, hc2, hc3⟩ := started_props env exs hne (hopen 0) (hfps 0)
  have hN : exs.length = 0 + (exs.length - 1) + 1 := by
    have := List.length_pos.mpr hne
    omega
  obtain ⟨n, tail, el, hdest, hlog, hent, htick, hupd⟩ :=
    session_run env exs 1 hopen hframes hfps (by norm_num) (exs.length - 1) 0
      (startedSys env exs) hN hinv
  refine ⟨n, hdest, ?_, ?_, el, ?_⟩
  · rw [hlog, restEnteredCount_append, hc1, hent]
    omega
  · rw [hlog, restTickCount_append, hc2, htick]
    omega
  · rw [hlog, List.filter_append, hc3, hupd]
    simp

theorem c5_rest_count_witness :
    ([⟨"a.mp4", 1⟩, ⟨"b.mp4", 2⟩] : List Exercise) ≠ [] ∧
    ∃ n,
      ((happy_step envLoop)^[n]
        (startedSys envLoop [⟨"a.mp4", 1⟩, ⟨"b.mp4", 2⟩])).st.destroyed = true ∧
      restEnteredCount ((happy_step envLoop)^[n]
        (startedSys envLoop [⟨"a.mp4", 1⟩, ⟨"b.mp4", 2⟩])).log
        = ([⟨"a.mp4", 1⟩, ⟨"b.mp4", 2⟩] : List Exercise).length - 1 ∧
      restTickCount ((happy_step envLoop)^[n]
        (startedSys envLoop [⟨"a.mp4", 1⟩, ⟨"b.mp4", 2⟩])).log
        = 10 * (([⟨"a.mp4", 1⟩, ⟨"b.mp4", 2⟩] : List Exercise).length - 1) ∧
      ∃ el, (((happy_step envLoop)^[n]
        (startedSys envLoop [⟨"a.mp4", 1⟩, ⟨"b.mp4", 2⟩])).log.filter isDbUpdate)
        = [Ev.dbUpdate 1 el true] :=
  ⟨by decide, c5_rest_count envLoop [⟨"a.mp4", 1⟩, ⟨"b.mp4", 2⟩] (by decide)
    (fun _ => rfl) (fun _ => by norm_num [envLoop]) (fun _ => by norm_num [envLoop])⟩

end WorkoutApp
